import Mathlib

/-!
# Verification of the `modit` vi keystroke parser

Shallow embedding of `src/vi.rs` (the current `ViParser` implementation) of the
`modit` crate, together with theorems checking the repository's specification
against it.

The shared vocabulary types (`Key`, `Event`, `Motion`, `Operator`, `TextObject`,
`Word`) are imported by `vi.rs` from the crate root; the crate-root file shipped
with the sources is an older revision that predates `vi.rs` (it lacks `Key`,
`Yank`, `Put`, the change events, and the `LeftInLine`/`RightInLine`/`PageUp`/
`PageDown` motions), so those few declarations are modelled from the spec,
as marked on each such definition.  Everything about `ViParser`, `ViCmd`,
`ViContext` and their methods is translated directly from `src/vi.rs`.
-/

namespace Modit

/-- Word flavour, from the crate root (`Word` in `lib.rs`, identical in spec §3). -/
inductive Word
  | Lower
  | Upper
deriving DecidableEq

/-- Operators, from the crate root (`Operator` in `lib.rs`, identical in spec §3). -/
inductive Operator
  | AutoIndent
  | Change
  | Delete
  | ShiftLeft
  | ShiftRight
  | SwapCase
  | Yank
deriving DecidableEq

/-- Modelled from the spec: the 30-variant `Motion` enum of the current crate
root (spec §3); the shipped older `lib.rs` lacks `LeftInLine`, `RightInLine`,
`PageDown`, `PageUp` but is otherwise identical. -/
inductive Motion
  | Around
  | Down
  | End
  | GotoEof
  | GotoLine (line : Nat)
  | Home
  | Inside
  | Left
  | LeftInLine
  | Line
  | NextChar (c : Char)
  | NextCharTill (c : Char)
  | NextSearch
  | NextWordEnd (w : Word)
  | NextWordStart (w : Word)
  | PageDown
  | PageUp
  | PreviousChar (c : Char)
  | PreviousCharTill (c : Char)
  | PreviousSearch
  | PreviousWordEnd (w : Word)
  | PreviousWordStart (w : Word)
  | Right
  | RightInLine
  | ScreenHigh
  | ScreenLow
  | ScreenMiddle
  | Selection
  | SoftHome
  | Up
deriving DecidableEq

/-- Modelled from the spec: `TextObject` of the current crate root (spec §3);
the shipped older `lib.rs` lacks only `Search {forwards}`. -/
inductive TextObject
  | AngleBrackets
  | Block
  | CurlyBrackets
  | DoubleQuotes
  | Paragraph
  | Parentheses
  | Search (forwards : Bool)
  | Sentence
  | SingleQuotes
  | SquareBrackets
  | Tag
  | Ticks
  | Word (w : Word)
deriving DecidableEq

/-- Modelled from the spec: the output `Event` vocabulary of the current crate
root (spec §6.2), exactly the constructors `vi.rs` emits plus `Copy`/`Paste`. -/
inductive Event
  | AutoIndent
  | Backspace
  | ChangeFinish
  | ChangeStart
  | Copy
  | Delete
  | Escape
  | Insert (c : Char)
  | Motion (m : Motion)
  | NewLine
  | Paste
  | Put (register : Char) (after : Bool)
  | Redraw
  | SelectClear
  | SelectLineStart
  | SelectStart
  | SelectTextObject (t : TextObject) (around : Bool)
  | SetSearch (value : String) (forwards : Bool)
  | ShiftLeft
  | ShiftRight
  | SwapCase
  | Undo
  | Yank (register : Char)
deriving DecidableEq

/-- Modelled from the spec: the `Key` input vocabulary (spec §6.1), exactly the
variants `vi.rs` matches on. -/
inductive Key
  | Backspace
  | Backtab
  | Char (c : Char)
  | Delete
  | Down
  | End
  | Enter
  | Escape
  | Home
  | Left
  | PageDown
  | PageUp
  | Right
  | Tab
  | Up
deriving DecidableEq

/-- Modelled from the spec (§4.1): `Key::normalize` folds control-character
`Char`s into their named equivalents; all other keys are unchanged. -/
def Key.normalize (k : Key) : Key :=
  match k with
  | Key.Char c =>
    if c = '\x08' then Key.Backspace
    else if c = '\x7F' then Key.Delete
    else if c = '\n' ∨ c = '\r' then Key.Enter
    else if c = '\x1B' then Key.Escape
    else if c = '\x09' then Key.Tab
    else Key.Char c
  | k => k

/-- `ViMode`, from `src/vi.rs`. -/
inductive ViMode
  | Normal
  | Extra (c : Char)
  | Insert
  | Replace
  | Visual
  | VisualLine
  | Command (value : String)
  | Search (value : String) (forwards : Bool)
deriving DecidableEq

/-- `VI_DEFAULT_REGISTER` from `src/vi.rs` (the `"` register). -/
def VI_DEFAULT_REGISTER : Char := '\x22'

/-- `usize::MAX` on the 64-bit targets the crate is built for; Rust's
saturating arithmetic on counts saturates here. -/
def USIZE_MAX : Nat := 2 ^ 64 - 1

/-- `usize::saturating_mul`. -/
def satMul (a b : Nat) : Nat := min (a * b) USIZE_MAX

/-- `usize::saturating_add`. -/
def satAdd (a b : Nat) : Nat := min (a + b) USIZE_MAX

/-- `Motion::text_object` from the crate root: true when the motion needs a
text object (`Around` or `Inside`). -/
def Motion.text_object : Motion → Bool
  | Motion.Around => true
  | Motion.Inside => true
  | _ => false

/-- Modelled from the spec (§4.4, `,` "repeats its reverse (via
`Motion::reverse`)"); `Motion::reverse` is not in the shipped sources.  Only
find-char motions (the only values ever stored in `semicolon_motion`) have a
reverse. -/
def Motion.reverse : Motion → Option Motion
  | Motion.NextChar c => some (Motion.PreviousChar c)
  | Motion.PreviousChar c => some (Motion.NextChar c)
  | Motion.NextCharTill c => some (Motion.PreviousCharTill c)
  | Motion.PreviousCharTill c => some (Motion.NextCharTill c)
  | _ => none

/-- `ViContext` from `src/vi.rs`.  The Rust callback is modelled by
accumulating the emitted events in `events`, in order. -/
structure ViContext where
  events : List Event
  selection : Bool
  pending_change : Option (List Event)
  change : Option (List Event)
  set_mode : Option ViMode
deriving DecidableEq

/-- `ViContext::e`: tee the event into the pending change (when recording) and
forward it to the callback. -/
def ViContext.e (ctx : ViContext) (ev : Event) : ViContext :=
  let ctx :=
    match ctx.pending_change with
    | some change => { ctx with pending_change := some (change ++ [ev]) }
    | none => ctx
  { ctx with events := ctx.events ++ [ev] }

/-- `ViContext::start_change`: initialise the pending buffer if absent and emit
`ChangeStart` directly on the callback (not teed). -/
def ViContext.start_change (ctx : ViContext) : ViContext :=
  let ctx :=
    if ctx.pending_change.isNone then { ctx with pending_change := some [] } else ctx
  { ctx with events := ctx.events ++ [Event.ChangeStart] }

/-- `ViContext::finish_change`: promote the pending buffer to `change` and emit
`ChangeFinish` directly on the callback (not teed). -/
def ViContext.finish_change (ctx : ViContext) : ViContext :=
  { ctx with
    change := ctx.pending_change
    pending_change := none
    events := ctx.events ++ [Event.ChangeFinish] }

/-- `for _ in 0..n { ctx.e(ev) }`. -/
def ViContext.emitN (ctx : ViContext) (ev : Event) : Nat → ViContext
  | 0 => ctx
  | n + 1 => (ctx.e ev).emitN ev n

/-- `for event in l { ctx.e(event.clone()) }`. -/
def ViContext.emitAll (ctx : ViContext) : List Event → ViContext
  | [] => ctx
  | ev :: rest => (ctx.e ev).emitAll rest

/-- `ViCmd` from `src/vi.rs` (all fields default to `None`). -/
structure ViCmd where
  register : Option Char := none
  count : Option Nat := none
  operator : Option Operator := none
  motion : Option Motion := none
  text_object : Option TextObject := none
deriving DecidableEq

/-- The guard at the top of `ViCmd::run`: a set motion must not be awaiting a
text object; an absent motion requires an active selection. -/
def ViCmd.runGuard (cmd : ViCmd) (selection : Bool) : Bool :=
  match cmd.motion with
  | some motion => !(motion.text_object && cmd.text_object.isNone)
  | none => selection

/-- The selection-building prelude of the operator branch of `ViCmd::run`
(the `match motion` right after `ctx.start_change()`).  In the
`Around`/`Inside` arms the Rust code `expect`s the text object; the run guard
guarantees it is present there, so `getD` never supplies its default. -/
def runPrelude (motion : Motion) (text_object : Option TextObject) (count : Nat)
    (ctx : ViContext) : ViContext :=
  match motion with
  | Motion.Around =>
    ctx.e (Event.SelectTextObject (text_object.getD TextObject.Block) true)
  | Motion.Inside =>
    ctx.e (Event.SelectTextObject (text_object.getD TextObject.Block) false)
  | Motion.Line => ctx.e Event.SelectLineStart
  | Motion.Selection => ctx
  | m => (ctx.e Event.SelectStart).emitN (Event.Motion m) count

/-- The operator-effect emissions of `ViCmd::run` (the `match operator` in its
operator branch). -/
def runOpEffect (op : Operator) (register : Char) (ctx : ViContext) : ViContext :=
  match op with
  | Operator.AutoIndent => ctx.e Event.AutoIndent
  | Operator.Change => (ctx.e (Event.Yank register)).e Event.Delete
  | Operator.Delete => (ctx.e (Event.Yank register)).e Event.Delete
  | Operator.ShiftLeft => ctx.e Event.ShiftLeft
  | Operator.ShiftRight => ctx.e Event.ShiftRight
  | Operator.SwapCase => ctx.e Event.SwapCase
  | Operator.Yank => ctx.e (Event.Yank register)

/-- The operator-less branch of `ViCmd::run` (its final `match motion`). -/
def runNoOperator (motion : Motion) (text_object : Option TextObject) (count : Nat)
    (ctx : ViContext) : ViContext :=
  match motion with
  | Motion.Around =>
    ctx.e (Event.SelectTextObject (text_object.getD TextObject.Block) true)
  | Motion.Inside =>
    ctx.e (Event.SelectTextObject (text_object.getD TextObject.Block) false)
  | m => ctx.emitN (Event.Motion m) count

/-- `ViCmd::run` from `src/vi.rs`: compile and emit the accumulated command,
resetting the accumulator, or refuse (returning `false`) when the guard fails. -/
def ViCmd.run (cmd : ViCmd) (ctx : ViContext) : ViCmd × ViContext × Bool :=
  if cmd.runGuard ctx.selection = false then (cmd, ctx, false)
  else
    let register := cmd.register.getD VI_DEFAULT_REGISTER
    let count := cmd.count.getD 1
    let motion := cmd.motion.getD Motion.Selection
    let text_object := cmd.text_object
    let operator := cmd.operator
    let cmd : ViCmd := {}
    match operator with
    | some op =>
      let ctx := runOpEffect op register (runPrelude motion text_object count ctx.start_change)
      let ctx := ctx.e Event.SelectClear
      if op = Operator.Change then
        (cmd, { ctx with set_mode := some ViMode.Insert }, true)
      else
        (cmd, { ctx.finish_change with set_mode := some ViMode.Normal }, true)
    | none => (cmd, runNoOperator motion text_object count ctx, true)

/-- `ViCmd::motion`: set the motion and attempt to run. -/
def ViCmd.doMotion (cmd : ViCmd) (m : Motion) (ctx : ViContext) : ViCmd × ViContext :=
  let cmd := { cmd with motion := some m }
  let r := cmd.run ctx
  (r.1, r.2.1)

/-- `ViCmd::operator`: a doubled operator turns into motion `Line`, otherwise
store the operator; then attempt to run. -/
def ViCmd.doOperator (cmd : ViCmd) (op : Operator) (ctx : ViContext) : ViCmd × ViContext :=
  let cmd :=
    if cmd.operator = some op then { cmd with motion := some Motion.Line }
    else { cmd with operator := some op }
  let r := cmd.run ctx
  (r.1, r.2.1)

/-- `ViCmd::text_object`: refuse (returning `false`) unless the current motion
needs a text object; otherwise store it, run, and return `true`. -/
def ViCmd.doTextObject (cmd : ViCmd) (t : TextObject) (ctx : ViContext) :
    ViCmd × ViContext × Bool :=
  if (cmd.motion.map Motion.text_object).getD false = false then (cmd, ctx, false)
  else
    let cmd := { cmd with text_object := some t }
    let r := cmd.run ctx
    (r.1, r.2.1, true)

/-- `ViCmd::repeat` specialised to its uses in `vi.rs`: emit `ev` `count` times
(default once), resetting the count. -/
def ViCmd.doRepeat (cmd : ViCmd) (ev : Event) (ctx : ViContext) : ViCmd × ViContext :=
  ({ cmd with count := none }, ctx.emitN ev (cmd.count.getD 1))

/-- `ViParser` from `src/vi.rs`. -/
structure ViParser where
  mode : ViMode
  cmd : ViCmd
  register_mode : ViMode
  semicolon_motion : Option Motion
  pending_change : Option (List Event)
  last_change : Option (List Event)
deriving DecidableEq

/-- `ViParser::new`. -/
def ViParser.new : ViParser :=
  { mode := ViMode.Normal
    cmd := {}
    register_mode := ViMode.Normal
    semicolon_motion := none
    pending_change := none
    last_change := none }

/-- `ViParser::reset` (the `Parser` trait impl): only `mode` and `cmd` are
returned to their defaults. -/
def ViParser.reset (p : ViParser) : ViParser :=
  { p with mode := ViMode.Normal, cmd := {} }

/-- The `Key::Char(c)` arm of the Normal/Visual/VisualLine match in
`ViParser::parse` (`src/vi.rs`).  Digits `1`-`9` are a range pattern in Rust
and are peeled off first; the remaining literals are disjoint from them, so
the order is immaterial. -/
def ViParser.normalChar (p : ViParser) (c : Char) (ctx : ViContext) : ViParser × ViContext :=
  if '1' ≤ c ∧ c ≤ '9' then
    -- Count of next action
    let number := c.toNat - '0'.toNat
    let count :=
      match p.cmd.count with
      | some count => satAdd (satMul count 10) number
      | none => number
    ({ p with cmd := { p.cmd with count := some count } }, ctx)
  else match c with
  -- Enter insert mode after cursor (if not awaiting text object)
  | 'a' =>
    if p.cmd.operator.isSome = true ∨ p.mode ≠ ViMode.Normal then
      let r := p.cmd.doMotion Motion.Around ctx
      ({ p with cmd := r.1 }, r.2)
    else
      let ctx := ctx.start_change
      let ctx := (ViCmd.doMotion {} Motion.Right ctx).2
      ({ p with mode := ViMode.Insert }, ctx)
  -- Enter insert mode at end of line
  | 'A' =>
    let ctx := ctx.start_change
    let ctx := (ViCmd.doMotion {} Motion.End ctx).2
    ({ p with mode := ViMode.Insert }, ctx)
  -- Previous word (if not text object)
  | 'b' =>
    let r := p.cmd.doTextObject TextObject.Block ctx
    if r.2.2 = true then ({ p with cmd := r.1 }, r.2.1)
    else
      let r2 := r.1.doMotion (Motion.PreviousWordStart Word.Lower) r.2.1
      ({ p with cmd := r2.1 }, r2.2)
  -- Previous WORD (if not text object)
  | 'B' =>
    let r := p.cmd.doTextObject TextObject.Block ctx
    if r.2.2 = true then ({ p with cmd := r.1 }, r.2.1)
    else
      let r2 := r.1.doMotion (Motion.PreviousWordStart Word.Upper) r.2.1
      ({ p with cmd := r2.1 }, r2.2)
  -- Change mode
  | 'c' =>
    let r := p.cmd.doOperator Operator.Change ctx
    ({ p with cmd := r.1 }, r.2)
  -- Change to end of line
  | 'C' =>
    let r := p.cmd.doOperator Operator.Change ctx
    let r2 := r.1.doMotion Motion.End r.2
    ({ p with cmd := r2.1 }, r2.2)
  -- Delete mode
  | 'd' =>
    let r := p.cmd.doOperator Operator.Delete ctx
    ({ p with cmd := r.1 }, r.2)
  -- Delete to end of line
  | 'D' =>
    let r := p.cmd.doOperator Operator.Delete ctx
    let r2 := r.1.doMotion Motion.End r.2
    ({ p with cmd := r2.1 }, r2.2)
  -- End of word
  | 'e' =>
    let r := p.cmd.doMotion (Motion.NextWordEnd Word.Lower) ctx
    ({ p with cmd := r.1 }, r.2)
  -- End of WORD
  | 'E' =>
    let r := p.cmd.doMotion (Motion.NextWordEnd Word.Upper) ctx
    ({ p with cmd := r.1 }, r.2)
  -- Find char forwards
  | 'f' => ({ p with mode := ViMode.Extra c }, ctx)
  -- Find char backwards
  | 'F' => ({ p with mode := ViMode.Extra c }, ctx)
  -- g commands
  | 'g' => ({ p with mode := ViMode.Extra c }, ctx)
  -- Goto line (or end of file)
  | 'G' =>
    match p.cmd.count with
    | some line =>
      let r := ViCmd.doMotion { p.cmd with count := none } (Motion.GotoLine line) ctx
      ({ p with cmd := r.1 }, r.2)
    | none =>
      let r := p.cmd.doMotion Motion.GotoEof ctx
      ({ p with cmd := r.1 }, r.2)
  -- Left (in line)
  | 'h' =>
    let r := p.cmd.doMotion Motion.LeftInLine ctx
    ({ p with cmd := r.1 }, r.2)
  -- Top of screen
  | 'H' =>
    let r := p.cmd.doMotion Motion.ScreenHigh ctx
    ({ p with cmd := r.1 }, r.2)
  -- Enter insert mode at cursor (if not awaiting text object)
  | 'i' =>
    if p.cmd.operator.isSome = true ∨ p.mode ≠ ViMode.Normal then
      let r := p.cmd.doMotion Motion.Inside ctx
      ({ p with cmd := r.1 }, r.2)
    else
      ({ p with mode := ViMode.Insert }, ctx.start_change)
  -- Enter insert mode at start of line
  | 'I' =>
    let ctx := ctx.start_change
    let ctx := (ViCmd.doMotion {} Motion.SoftHome ctx).2
    ({ p with mode := ViMode.Insert }, ctx)
  -- Down
  | 'j' =>
    let r := p.cmd.doMotion Motion.Down ctx
    ({ p with cmd := r.1 }, r.2)
  -- TODO in source: join lines
  | 'J' => (p, ctx)
  -- Up
  | 'k' =>
    let r := p.cmd.doMotion Motion.Up ctx
    ({ p with cmd := r.1 }, r.2)
  -- TODO in source: look up keyword
  | 'K' => (p, ctx)
  -- Right (in line)
  | 'l' =>
    let r := p.cmd.doMotion Motion.RightInLine ctx
    ({ p with cmd := r.1 }, r.2)
  -- Bottom of screen
  | 'L' =>
    let r := p.cmd.doMotion Motion.ScreenLow ctx
    ({ p with cmd := r.1 }, r.2)
  -- TODO in source: set mark
  | 'm' => (p, ctx)
  -- Middle of screen
  | 'M' =>
    let r := p.cmd.doMotion Motion.ScreenMiddle ctx
    ({ p with cmd := r.1 }, r.2)
  -- Next search item
  | 'n' =>
    let r := p.cmd.doMotion Motion.NextSearch ctx
    ({ p with cmd := r.1 }, r.2)
  -- Previous search item
  | 'N' =>
    let r := p.cmd.doMotion Motion.PreviousSearch ctx
    ({ p with cmd := r.1 }, r.2)
  -- Create line after and enter insert mode
  | 'o' =>
    let ctx := ctx.start_change
    let ctx := (ViCmd.doMotion {} Motion.End ctx).2
    let ctx := ctx.e Event.NewLine
    ({ p with mode := ViMode.Insert }, ctx)
  -- Create line before and enter insert mode
  | 'O' =>
    let ctx := ctx.start_change
    let ctx := (ViCmd.doMotion {} Motion.Home ctx).2
    let ctx := ctx.e Event.NewLine
    let ctx := (ViCmd.doMotion {} Motion.Up ctx).2
    ({ p with mode := ViMode.Insert }, ctx)
  -- Paste after (if not text object)
  | 'p' =>
    let r := p.cmd.doTextObject TextObject.Paragraph ctx
    if r.2.2 = true then ({ p with cmd := r.1 }, r.2.1)
    else
      let register := p.cmd.register.getD VI_DEFAULT_REGISTER
      ({ p with cmd := r.1 }, r.2.1.e (Event.Put register true))
  -- Paste before
  | 'P' =>
    let register := p.cmd.register.getD VI_DEFAULT_REGISTER
    (p, ctx.e (Event.Put register false))
  -- Replace char
  | 'r' => ({ p with mode := ViMode.Extra c }, ctx)
  -- Replace mode
  | 'R' => ({ p with mode := ViMode.Replace }, ctx.start_change)
  -- Substitute char (if not text object)
  | 's' =>
    let r := p.cmd.doTextObject TextObject.Sentence ctx
    if r.2.2 = true then ({ p with cmd := r.1 }, r.2.1)
    else
      let ctx := r.2.1.start_change
      let r2 := r.1.doRepeat Event.Delete ctx
      ({ p with cmd := r2.1, mode := ViMode.Insert }, r2.2)
  -- Substitute line
  | 'S' =>
    let r := p.cmd.doOperator Operator.Change ctx
    let r2 := r.1.doMotion Motion.Line r.2
    ({ p with cmd := r2.1 }, r2.2)
  -- Until character forwards (if not text object)
  | 't' =>
    let r := p.cmd.doTextObject TextObject.Tag ctx
    if r.2.2 = true then ({ p with cmd := r.1 }, r.2.1)
    else ({ p with cmd := r.1, mode := ViMode.Extra c }, r.2.1)
  -- Until character backwards
  | 'T' => ({ p with mode := ViMode.Extra c }, ctx)
  -- Undo
  | 'u' => (p, ctx.e Event.Undo)
  -- Enter visual mode
  | 'v' =>
    if p.mode = ViMode.Visual then
      ({ p with mode := ViMode.Normal }, ctx.e Event.SelectClear)
    else
      ({ p with mode := ViMode.Visual }, ctx.e Event.SelectStart)
  -- Enter line visual mode
  | 'V' =>
    if p.mode = ViMode.VisualLine then
      ({ p with mode := ViMode.Normal }, ctx.e Event.SelectClear)
    else
      ({ p with mode := ViMode.VisualLine }, ctx.e Event.SelectLineStart)
  -- Next word (if not text object)
  | 'w' =>
    let r := p.cmd.doTextObject (TextObject.Word Word.Lower) ctx
    if r.2.2 = true then ({ p with cmd := r.1 }, r.2.1)
    else
      let r2 := r.1.doMotion (Motion.NextWordStart Word.Lower) r.2.1
      ({ p with cmd := r2.1 }, r2.2)
  -- Next WORD (if not text object)
  | 'W' =>
    let r := p.cmd.doTextObject (TextObject.Word Word.Upper) ctx
    if r.2.2 = true then ({ p with cmd := r.1 }, r.2.1)
    else
      let r2 := r.1.doMotion (Motion.NextWordStart Word.Upper) r.2.1
      ({ p with cmd := r2.1 }, r2.2)
  -- Remove character at cursor
  | 'x' =>
    let r := p.cmd.doRepeat Event.Delete ctx
    ({ p with cmd := r.1 }, r.2)
  -- Remove character before cursor
  | 'X' =>
    let r := p.cmd.doRepeat Event.Backspace ctx
    ({ p with cmd := r.1 }, r.2)
  -- Yank
  | 'y' =>
    let r := p.cmd.doOperator Operator.Yank ctx
    ({ p with cmd := r.1 }, r.2)
  -- Yank line
  | 'Y' =>
    let r := p.cmd.doOperator Operator.Yank ctx
    let r2 := r.1.doMotion Motion.Line r.2
    ({ p with cmd := r2.1 }, r2.2)
  -- z commands
  | 'z' => ({ p with mode := ViMode.Extra c }, ctx)
  -- Z commands
  | 'Z' => ({ p with mode := ViMode.Extra c }, ctx)
  -- Go to start of line
  | '0' =>
    match p.cmd.count with
    | some count =>
      ({ p with cmd := { p.cmd with count := some (satMul count 10) } }, ctx)
    | none =>
      let r := p.cmd.doMotion Motion.Home ctx
      ({ p with cmd := r.1 }, r.2)
  -- TODO in source (if not text object)
  | '\x60' =>
    let r := p.cmd.doTextObject TextObject.Ticks ctx
    ({ p with cmd := r.1 }, r.2.1)
  -- Swap case
  | '~' =>
    let r := p.cmd.doOperator Operator.SwapCase ctx
    ({ p with cmd := r.1 }, r.2)
  -- Go to end of line
  | '$' =>
    let r := p.cmd.doMotion Motion.End ctx
    ({ p with cmd := r.1 }, r.2)
  -- Go to start of line after whitespace
  | '^' =>
    let r := p.cmd.doMotion Motion.SoftHome ctx
    ({ p with cmd := r.1 }, r.2)
  -- TODO in source (if not text object)
  | '(' =>
    let r := p.cmd.doTextObject TextObject.Parentheses ctx
    ({ p with cmd := r.1 }, r.2.1)
  -- TODO in source (if not text object)
  | ')' =>
    let r := p.cmd.doTextObject TextObject.Parentheses ctx
    ({ p with cmd := r.1 }, r.2.1)
  -- Move up and soft home
  | '-' =>
    let r := p.cmd.doMotion Motion.Up ctx
    let r2 := r.1.doMotion Motion.SoftHome r.2
    ({ p with cmd := r2.1 }, r2.2)
  -- Move down and soft home
  | '+' =>
    let r := p.cmd.doMotion Motion.Down ctx
    let r2 := r.1.doMotion Motion.SoftHome r.2
    ({ p with cmd := r2.1 }, r2.2)
  -- Auto indent
  | '=' =>
    let r := p.cmd.doOperator Operator.AutoIndent ctx
    ({ p with cmd := r.1 }, r.2)
  -- TODO in source (if not text object)
  | '[' =>
    let r := p.cmd.doTextObject TextObject.SquareBrackets ctx
    ({ p with cmd := r.1 }, r.2.1)
  -- TODO in source (if not text object)
  | '\x7b' =>
    let r := p.cmd.doTextObject TextObject.CurlyBrackets ctx
    ({ p with cmd := r.1 }, r.2.1)
  -- TODO in source (if not text object)
  | ']' =>
    let r := p.cmd.doTextObject TextObject.SquareBrackets ctx
    ({ p with cmd := r.1 }, r.2.1)
  -- TODO in source (if not text object)
  | '\x7d' =>
    let r := p.cmd.doTextObject TextObject.CurlyBrackets ctx
    ({ p with cmd := r.1 }, r.2.1)
  -- Repeat f/F/t/T
  | ';' =>
    match p.semicolon_motion with
    | some m =>
      let r := p.cmd.doMotion m ctx
      ({ p with cmd := r.1 }, r.2)
    | none => (p, ctx)
  -- Enter command mode
  | ':' => ({ p with mode := ViMode.Command "" }, ctx)
  -- TODO in source (if not text object)
  | '\x27' =>
    let r := p.cmd.doTextObject TextObject.SingleQuotes ctx
    ({ p with cmd := r.1 }, r.2.1)
  -- Select register (if not text object)
  | '\x22' =>
    let r := p.cmd.doTextObject TextObject.DoubleQuotes ctx
    if r.2.2 = true then ({ p with cmd := r.1 }, r.2.1)
    else
      ({ p with register_mode := p.mode, mode := ViMode.Extra c }, ctx)
  -- Reverse f/F/t/T
  | ',' =>
    match p.semicolon_motion with
    | some m =>
      match m.reverse with
      | some rev =>
        let r := p.cmd.doMotion rev ctx
        ({ p with cmd := r.1 }, r.2)
      | none => (p, ctx)
    | none => (p, ctx)
  -- Unindent (if not text object)
  | '<' =>
    let r := p.cmd.doTextObject TextObject.AngleBrackets ctx
    if r.2.2 = true then ({ p with cmd := r.1 }, r.2.1)
    else
      let r2 := r.1.doOperator Operator.ShiftLeft r.2.1
      ({ p with cmd := r2.1 }, r2.2)
  -- Repeat change
  | '.' =>
    match p.last_change with
    | some change =>
      let ctx := ctx.start_change
      let ctx := ctx.emitAll change
      (p, ctx.finish_change)
    | none => (p, ctx)
  -- Indent (if not text object)
  | '>' =>
    let r := p.cmd.doTextObject TextObject.AngleBrackets ctx
    if r.2.2 = true then ({ p with cmd := r.1 }, r.2.1)
    else
      let r2 := r.1.doOperator Operator.ShiftRight r.2.1
      ({ p with cmd := r2.1 }, r2.2)
  -- Enter search mode
  | '/' => ({ p with mode := ViMode.Search "" true }, ctx)
  -- Enter search backwards mode
  | '?' => ({ p with mode := ViMode.Search "" false }, ctx)
  -- Right
  | ' ' =>
    let r := p.cmd.doMotion Motion.Right ctx
    ({ p with cmd := r.1 }, r.2)
  | _ => (p, ctx)

/-- The mode dispatch of `ViParser::parse` (`src/vi.rs`), i.e. everything
before the post-step bookkeeping.  Takes the already-normalized key and the
freshly built context. -/
def ViParser.dispatch (p : ViParser) (key : Key) (ctx : ViContext) : ViParser × ViContext :=
  match p.mode with
  | ViMode.Normal | ViMode.Visual | ViMode.VisualLine =>
    match key with
    | Key.Backspace =>
      let r := p.cmd.doMotion Motion.Left ctx
      ({ p with cmd := r.1 }, r.2)
    | Key.Backtab => (p, ctx)
    | Key.Delete =>
      let r := p.cmd.doRepeat Event.Delete ctx
      ({ p with cmd := r.1 }, r.2)
    | Key.Down =>
      let r := p.cmd.doMotion Motion.Down ctx
      ({ p with cmd := r.1 }, r.2)
    | Key.End =>
      let r := p.cmd.doMotion Motion.End ctx
      ({ p with cmd := r.1 }, r.2)
    | Key.Enter =>
      let r := p.cmd.doMotion Motion.Down ctx
      let r2 := r.1.doMotion Motion.SoftHome r.2
      ({ p with cmd := r2.1 }, r2.2)
    | Key.Escape => (p.reset, ctx.e Event.Escape)
    | Key.Home =>
      let r := p.cmd.doMotion Motion.Home ctx
      ({ p with cmd := r.1 }, r.2)
    | Key.Left =>
      let r := p.cmd.doMotion Motion.LeftInLine ctx
      ({ p with cmd := r.1 }, r.2)
    | Key.PageDown =>
      let r := p.cmd.doMotion Motion.PageDown ctx
      ({ p with cmd := r.1 }, r.2)
    | Key.PageUp =>
      let r := p.cmd.doMotion Motion.PageUp ctx
      ({ p with cmd := r.1 }, r.2)
    | Key.Right =>
      let r := p.cmd.doMotion Motion.RightInLine ctx
      ({ p with cmd := r.1 }, r.2)
    | Key.Tab => (p, ctx)
    | Key.Up =>
      let r := p.cmd.doMotion Motion.Up ctx
      ({ p with cmd := r.1 }, r.2)
    | Key.Char c => p.normalChar c ctx
  | ViMode.Extra extra =>
    if extra = 'f' ∨ extra = 'F' ∨ extra = 't' ∨ extra = 'T' then
      -- Find/till character
      match key with
      | Key.Char c =>
        let m :=
          if extra = 'f' then Motion.NextChar c
          else if extra = 'F' then Motion.PreviousChar c
          else if extra = 't' then Motion.NextCharTill c
          else Motion.PreviousCharTill c
        let r := p.cmd.doMotion m ctx
        (ViParser.reset { p with cmd := r.1, semicolon_motion := some m }, r.2)
      | _ => (p.reset, ctx)
    else if extra = 'g' then
      -- Extra commands
      match key with
      | Key.Char c =>
        if c = 'e' then
          let r := p.cmd.doMotion (Motion.PreviousWordEnd Word.Lower) ctx
          (ViParser.reset { p with cmd := r.1 }, r.2)
        else if c = 'E' then
          let r := p.cmd.doMotion (Motion.PreviousWordEnd Word.Upper) ctx
          (ViParser.reset { p with cmd := r.1 }, r.2)
        else if c = 'g' then
          match p.cmd.count with
          | some line =>
            let r := ViCmd.doMotion { p.cmd with count := none } (Motion.GotoLine line) ctx
            (ViParser.reset { p with cmd := r.1 }, r.2)
          | none =>
            let r := p.cmd.doMotion (Motion.GotoLine 1) ctx
            (ViParser.reset { p with cmd := r.1 }, r.2)
        else if c = 'n' then
          let r := p.cmd.doMotion Motion.Inside ctx
          let r2 := r.1.doTextObject (TextObject.Search true) r.2
          (ViParser.reset { p with cmd := r2.1 }, r2.2.1)
        else if c = 'N' then
          let r := p.cmd.doMotion Motion.Inside ctx
          let r2 := r.1.doTextObject (TextObject.Search false) r.2
          (ViParser.reset { p with cmd := r2.1 }, r2.2.1)
        else (p.reset, ctx)
      | _ => (p.reset, ctx)
    else if extra = 'r' then
      -- Replace character
      match key with
      | Key.Char c =>
        let ctx := ctx.start_change
        let ctx := ctx.e Event.Delete
        let ctx := ctx.e (Event.Insert c)
        let ctx := (ViCmd.doMotion {} Motion.LeftInLine ctx).2
        (p.reset, ctx.finish_change)
      | _ => (p.reset, ctx)
    else if extra = '\x22' then
      -- Select register
      let p :=
        match key with
        | Key.Char c => { p with cmd := { p.cmd with register := some c } }
        | _ => p
      ({ p with mode := p.register_mode, register_mode := ViMode.Normal }, ctx)
    else
      -- TODO in source: other extra commands just log
      (p.reset, ctx)
  | ViMode.Insert | ViMode.Replace =>
    match key with
    | Key.Backspace => (p, ctx.e Event.Backspace)
    | Key.Backtab => (p, ctx.e Event.ShiftLeft)
    | Key.Char c =>
      let ctx := if p.mode = ViMode.Replace then ctx.e Event.Delete else ctx
      (p, ctx.e (Event.Insert c))
    | Key.Down => (p, (ViCmd.doMotion {} Motion.Down ctx).2)
    | Key.Delete => (p, ctx.e Event.Delete)
    | Key.End => (p, (ViCmd.doMotion {} Motion.End ctx).2)
    | Key.Enter => (p, ctx.e Event.NewLine)
    | Key.Escape =>
      let ctx := (ViCmd.doMotion {} Motion.LeftInLine ctx).2
      (p.reset, ctx.finish_change)
    | Key.Home => (p, (ViCmd.doMotion {} Motion.Home ctx).2)
    | Key.Left => (p, (ViCmd.doMotion {} Motion.LeftInLine ctx).2)
    | Key.PageDown => (p, (ViCmd.doMotion {} Motion.PageDown ctx).2)
    | Key.PageUp => (p, (ViCmd.doMotion {} Motion.PageUp ctx).2)
    | Key.Right => (p, (ViCmd.doMotion {} Motion.RightInLine ctx).2)
    | Key.Tab => (p, ctx.e Event.ShiftRight)
    | Key.Up => (p, (ViCmd.doMotion {} Motion.Up ctx).2)
  | ViMode.Command value =>
    match key with
    | Key.Escape => (p.reset, ctx)
    | Key.Enter => (p.reset, ctx)
    | Key.Backspace =>
      if value = "" then (p.reset, ctx)
      else ({ p with mode := ViMode.Command (value.dropRight 1) }, ctx)
    | Key.Char c => ({ p with mode := ViMode.Command (value.push c) }, ctx)
    | _ => (p, ctx)
  | ViMode.Search value forwards =>
    match key with
    | Key.Escape => (p.reset, ctx)
    | Key.Enter =>
      let ctx := ctx.e (Event.SetSearch value forwards)
      let ctx := (ViCmd.doMotion {} Motion.NextSearch ctx).2
      (p.reset, ctx)
    | Key.Backspace =>
      if value = "" then (p.reset, ctx)
      else ({ p with mode := ViMode.Search (value.dropRight 1) forwards }, ctx)
    | Key.Char c => ({ p with mode := ViMode.Search (value.push c) forwards }, ctx)
    | _ => (p, ctx)

/-- The fresh context built at the top of `ViParser::parse`: the pending
change is moved from the parser into the context. -/
def ViParser.initCtx (p : ViParser) (selection : Bool) : ViContext :=
  { events := []
    selection := selection
    pending_change := p.pending_change
    change := none
    set_mode := none }

/-- The post-step bookkeeping at the bottom of `ViParser::parse`: apply a
requested mode, move the pending change back, promote a finished change to
`last_change`, and emit the trailing `Redraw` (at which point the context no
longer records, so `Redraw` is never teed). -/
def ViParser.finalize (p : ViParser) (ctx : ViContext) : ViParser × List Event :=
  let p :=
    match ctx.set_mode with
    | some m => { p with mode := m }
    | none => p
  let p := { p with pending_change := ctx.pending_change }
  let p :=
    match ctx.change with
    | some change => { p with last_change := some change }
    | none => p
  (p, ctx.events ++ [Event.Redraw])

/-- `ViParser::parse` from `src/vi.rs`: normalize the key, dispatch on the
mode, then do the post-step bookkeeping.  Returns the new parser state and
the list of events emitted during the call, in order. -/
def ViParser.parse (p : ViParser) (key : Key) (selection : Bool) : ViParser × List Event :=
  let r := p.dispatch key.normalize (p.initCtx selection)
  r.1.finalize r.2

/-- Feed a list of (key, selection) pairs through the parser. -/
def ViParser.stepKeys (p : ViParser) : List (Key × Bool) → ViParser
  | [] => p
  | ks :: rest => ((p.parse ks.1 ks.2).1).stepKeys rest

/-- A parser state is reachable when some key sequence drives `ViParser::new`
to it. -/
def Reachable (p : ViParser) : Prop :=
  ∃ ks : List (Key × Bool), ViParser.new.stepKeys ks = p

/-- The comparison point of the double-operator law: what one `parse` call
would do if its whole dispatch were `cmd.motion(Motion::Line, ctx)` — i.e.
"explicitly requesting motion `Line` on the accumulator", followed by the
usual post-step bookkeeping. -/
def ViParser.parseMotionLine (p : ViParser) (selection : Bool) : ViParser × List Event :=
  let r := p.cmd.doMotion Motion.Line (p.initCtx selection)
  ViParser.finalize { p with cmd := r.1 } r.2

/-- The Normal-mode keys whose handler is exactly `cmd.operator(op, ctx)`,
plus `<`/`>` which first offer the key as a text object. -/
def opCharOf (c : Char) : Option Operator :=
  if c = 'c' then some Operator.Change
  else if c = 'd' then some Operator.Delete
  else if c = 'y' then some Operator.Yank
  else if c = '~' then some Operator.SwapCase
  else if c = '=' then some Operator.AutoIndent
  else if c = '<' then some Operator.ShiftLeft
  else if c = '>' then some Operator.ShiftRight
  else none

/-! ## Field behaviour of the context operations -/

@[simp]
theorem e_events (ctx : ViContext) (ev : Event) :
    (ctx.e ev).events = ctx.events ++ [ev] := by
  obtain ⟨es, sel, pc, ch, sm⟩ := ctx
  cases pc <;> rfl

@[simp]
theorem e_pending (ctx : ViContext) (ev : Event) :
    (ctx.e ev).pending_change = ctx.pending_change.map (fun l => l ++ [ev]) := by
  obtain ⟨es, sel, pc, ch, sm⟩ := ctx
  cases pc <;> rfl

@[simp]
theorem e_change (ctx : ViContext) (ev : Event) : (ctx.e ev).change = ctx.change := by
  obtain ⟨es, sel, pc, ch, sm⟩ := ctx
  cases pc <;> rfl

@[simp]
theorem e_set_mode (ctx : ViContext) (ev : Event) : (ctx.e ev).set_mode = ctx.set_mode := by
  obtain ⟨es, sel, pc, ch, sm⟩ := ctx
  cases pc <;> rfl

@[simp]
theorem e_selection (ctx : ViContext) (ev : Event) : (ctx.e ev).selection = ctx.selection := by
  obtain ⟨es, sel, pc, ch, sm⟩ := ctx
  cases pc <;> rfl

@[simp]
theorem start_change_events (ctx : ViContext) :
    (ctx.start_change).events = ctx.events ++ [Event.ChangeStart] := by
  obtain ⟨es, sel, pc, ch, sm⟩ := ctx
  cases pc <;> rfl

@[simp]
theorem start_change_pending (ctx : ViContext) :
    (ctx.start_change).pending_change = some (ctx.pending_change.getD []) := by
  obtain ⟨es, sel, pc, ch, sm⟩ := ctx
  cases pc <;> rfl

@[simp]
theorem start_change_change (ctx : ViContext) : (ctx.start_change).change = ctx.change := by
  obtain ⟨es, sel, pc, ch, sm⟩ := ctx
  cases pc <;> rfl

@[simp]
theorem start_change_set_mode (ctx : ViContext) :
    (ctx.start_change).set_mode = ctx.set_mode := by
  obtain ⟨es, sel, pc, ch, sm⟩ := ctx
  cases pc <;> rfl

@[simp]
theorem start_change_selection (ctx : ViContext) :
    (ctx.start_change).selection = ctx.selection := by
  obtain ⟨es, sel, pc, ch, sm⟩ := ctx
  cases pc <;> rfl

@[simp]
theorem finish_change_events (ctx : ViContext) :
    (ctx.finish_change).events = ctx.events ++ [Event.ChangeFinish] := rfl

@[simp]
theorem finish_change_pending (ctx : ViContext) :
    (ctx.finish_change).pending_change = none := rfl

@[simp]
theorem finish_change_change (ctx : ViContext) :
    (ctx.finish_change).change = ctx.pending_change := rfl

@[simp]
theorem finish_change_set_mode (ctx : ViContext) :
    (ctx.finish_change).set_mode = ctx.set_mode := rfl

@[simp]
theorem finish_change_selection (ctx : ViContext) :
    (ctx.finish_change).selection = ctx.selection := rfl

@[simp]
theorem emitN_events (ctx : ViContext) (ev : Event) (n : Nat) :
    (ctx.emitN ev n).events = ctx.events ++ List.replicate n ev := by
  induction n generalizing ctx with
  | zero => simp [ViContext.emitN]
  | succ n ih =>
    rw [ViContext.emitN, ih, e_events, List.replicate_succ, List.append_assoc]
    rfl

@[simp]
theorem emitN_pending (ctx : ViContext) (ev : Event) (n : Nat) :
    (ctx.emitN ev n).pending_change
      = ctx.pending_change.map (fun l => l ++ List.replicate n ev) := by
  induction n generalizing ctx with
  | zero => cases h : ctx.pending_change <;> simp [ViContext.emitN, h]
  | succ n ih =>
    rw [ViContext.emitN, ih, e_pending]
    cases ctx.pending_change <;> simp [List.replicate_succ]

@[simp]
theorem emitN_change (ctx : ViContext) (ev : Event) (n : Nat) :
    (ctx.emitN ev n).change = ctx.change := by
  induction n generalizing ctx with
  | zero => rfl
  | succ n ih => rw [ViContext.emitN, ih, e_change]

@[simp]
theorem emitN_set_mode (ctx : ViContext) (ev : Event) (n : Nat) :
    (ctx.emitN ev n).set_mode = ctx.set_mode := by
  induction n generalizing ctx with
  | zero => rfl
  | succ n ih => rw [ViContext.emitN, ih, e_set_mode]

@[simp]
theorem emitN_selection (ctx : ViContext) (ev : Event) (n : Nat) :
    (ctx.emitN ev n).selection = ctx.selection := by
  induction n generalizing ctx with
  | zero => rfl
  | succ n ih => rw [ViContext.emitN, ih, e_selection]

@[simp]
theorem emitAll_events (ctx : ViContext) (l : List Event) :
    (ctx.emitAll l).events = ctx.events ++ l := by
  induction l generalizing ctx with
  | nil => simp [ViContext.emitAll]
  | cons ev rest ih =>
    rw [ViContext.emitAll, ih, e_events, List.append_assoc]
    rfl

@[simp]
theorem emitAll_pending (ctx : ViContext) (l : List Event) :
    (ctx.emitAll l).pending_change = ctx.pending_change.map (fun q => q ++ l) := by
  induction l generalizing ctx with
  | nil => cases h : ctx.pending_change <;> simp [ViContext.emitAll, h]
  | cons ev rest ih =>
    rw [ViContext.emitAll, ih, e_pending]
    cases ctx.pending_change <;> simp

@[simp]
theorem emitAll_change (ctx : ViContext) (l : List Event) :
    (ctx.emitAll l).change = ctx.change := by
  induction l generalizing ctx with
  | nil => rfl
  | cons ev rest ih => rw [ViContext.emitAll, ih, e_change]

@[simp]
theorem emitAll_set_mode (ctx : ViContext) (l : List Event) :
    (ctx.emitAll l).set_mode = ctx.set_mode := by
  induction l generalizing ctx with
  | nil => rfl
  | cons ev rest ih => rw [ViContext.emitAll, ih, e_set_mode]

@[simp]
theorem emitAll_selection (ctx : ViContext) (l : List Event) :
    (ctx.emitAll l).selection = ctx.selection := by
  induction l generalizing ctx with
  | nil => rfl
  | cons ev rest ih => rw [ViContext.emitAll, ih, e_selection]

/-! ## The no-`Redraw` emission discipline

`StepOk a b` says context `b` extends context `a` by appending only
non-`Redraw` events, and that Redraw-freedom of the recording buffers is
preserved.  Every dispatch branch of `ViParser::parse` satisfies it; the lone
`Redraw` is appended afterwards by the post-step bookkeeping. -/

/-- All lists an optional buffer may hold are `Redraw`-free. -/
def bufOk (o : Option (List Event)) : Prop :=
  ∀ l, o = some l → Event.Redraw ∉ l

theorem bufOk_none : bufOk none := by
  intro l h
  cases h

theorem bufOk_some {l : List Event} (h : Event.Redraw ∉ l) : bufOk (some l) := by
  intro l' h'
  cases h'
  exact h

theorem bufOk_map_append {o : Option (List Event)} (ho : bufOk o) {l2 : List Event}
    (h2 : Event.Redraw ∉ l2) : bufOk (o.map (fun l => l ++ l2)) := by
  intro l' h'
  cases o with
  | none => cases h'
  | some q =>
    simp only [Option.map_some'] at h'
    cases h'
    simp only [List.mem_append]
    rintro (hq | hq)
    · exact ho q rfl hq
    · exact h2 hq

/-- Context `b` extends `a` by `Redraw`-free emissions only. -/
def StepOk (a b : ViContext) : Prop :=
  (∃ l, b.events = a.events ++ l ∧ Event.Redraw ∉ l) ∧
  (bufOk a.pending_change →
    bufOk b.pending_change ∧ (bufOk a.change → bufOk b.change))

theorem StepOk.refl (a : ViContext) : StepOk a a :=
  ⟨⟨[], by simp, by simp⟩, fun h => ⟨h, fun h' => h'⟩⟩

theorem StepOk.e {a b : ViContext} {ev : Event} (hev : ev ≠ Event.Redraw)
    (h : StepOk a b) : StepOk a (b.e ev) := by
  obtain ⟨⟨l, hl, hlr⟩, hbuf⟩ := h
  refine ⟨⟨l ++ [ev], ?_, ?_⟩, ?_⟩
  · simp [hl]
  · simp only [List.mem_append, List.mem_singleton]
    rintro (hm | hm)
    · exact hlr hm
    · exact hev hm.symm
  · intro ha
    obtain ⟨hp, hc⟩ := hbuf ha
    refine ⟨?_, ?_⟩
    · rw [e_pending]
      exact bufOk_map_append hp (by simpa using fun hm => hev hm.symm)
    · rw [e_change]
      exact hc

theorem StepOk.start {a b : ViContext} (h : StepOk a b) : StepOk a b.start_change := by
  obtain ⟨⟨l, hl, hlr⟩, hbuf⟩ := h
  refine ⟨⟨l ++ [Event.ChangeStart], ?_, ?_⟩, ?_⟩
  · simp [hl]
  · simp only [List.mem_append, List.mem_singleton]
    rintro (hm | hm)
    · exact hlr hm
    · cases hm
  · intro ha
    obtain ⟨hp, hc⟩ := hbuf ha
    refine ⟨?_, ?_⟩
    · rw [start_change_pending]
      apply bufOk_some
      cases hq : b.pending_change with
      | none => simp
      | some q =>
        simpa [hq] using hp q hq
    · rw [start_change_change]
      exact hc

theorem StepOk.finish {a b : ViContext} (h : StepOk a b) : StepOk a b.finish_change := by
  obtain ⟨⟨l, hl, hlr⟩, hbuf⟩ := h
  refine ⟨⟨l ++ [Event.ChangeFinish], ?_, ?_⟩, ?_⟩
  · simp [hl]
  · simp only [List.mem_append, List.mem_singleton]
    rintro (hm | hm)
    · exact hlr hm
    · cases hm
  · intro ha
    obtain ⟨hp, _⟩ := hbuf ha
    refine ⟨?_, fun _ => ?_⟩
    · rw [finish_change_pending]
      exact bufOk_none
    · rw [finish_change_change]
      exact hp

theorem StepOk.emitN {a b : ViContext} {ev : Event} (hev : ev ≠ Event.Redraw)
    (h : StepOk a b) : ∀ n, StepOk a (b.emitN ev n) := by
  intro n
  induction n generalizing b with
  | zero => exact h
  | succ n ih => exact ih (StepOk.e hev h)

theorem StepOk.emitAll {a b : ViContext} {l : List Event} (hl : Event.Redraw ∉ l)
    (h : StepOk a b) : StepOk a (b.emitAll l) := by
  induction l generalizing b with
  | nil => exact h
  | cons ev rest ih =>
    simp only [List.mem_cons] at hl
    push_neg at hl
    exact ih hl.2 (StepOk.e (fun hc => hl.1 hc.symm) h)

theorem StepOk.setMode {a b : ViContext} (m : Option ViMode) (h : StepOk a b) :
    StepOk a { b with set_mode := m } := h

theorem StepOk.prelude {a b : ViContext} (m : Motion) (t : Option TextObject) (n : Nat)
    (h : StepOk a b) : StepOk a (runPrelude m t n b) := by
  cases m <;>
    first
    | exact h
    | exact StepOk.e (by simp) h
    | exact StepOk.emitN (by simp) (StepOk.e (by simp) h) _

theorem StepOk.opEffect {a b : ViContext} (op : Operator) (r : Char) (h : StepOk a b) :
    StepOk a (runOpEffect op r b) := by
  cases op <;>
    first
    | exact StepOk.e (by simp) h
    | exact StepOk.e (by simp) (StepOk.e (by simp) h)

theorem StepOk.noOperator {a b : ViContext} (m : Motion) (t : Option TextObject) (n : Nat)
    (h : StepOk a b) : StepOk a (runNoOperator m t n b) := by
  cases m <;>
    first
    | exact StepOk.e (by simp) h
    | exact StepOk.emitN (by simp) h _

theorem StepOk.runCtx {a b : ViContext} {cmd : ViCmd} (h : StepOk a b) :
    StepOk a (cmd.run b).2.1 := by
  rw [ViCmd.run]
  split
  · exact h
  · dsimp only
    split
    · split
      · exact StepOk.setMode _
          (StepOk.e (by simp) (StepOk.opEffect _ _ (StepOk.prelude _ _ _ (StepOk.start h))))
      · exact StepOk.setMode _ (StepOk.finish
          (StepOk.e (by simp) (StepOk.opEffect _ _ (StepOk.prelude _ _ _ (StepOk.start h)))))
    · exact StepOk.noOperator _ _ _ h

theorem StepOk.doMotionCtx {a b : ViContext} {cmd : ViCmd} {m : Motion} (h : StepOk a b) :
    StepOk a (cmd.doMotion m b).2 := by
  unfold ViCmd.doMotion
  exact StepOk.runCtx h

theorem StepOk.doOperatorCtx {a b : ViContext} {cmd : ViCmd} {op : Operator}
    (h : StepOk a b) : StepOk a (cmd.doOperator op b).2 := by
  unfold ViCmd.doOperator
  exact StepOk.runCtx h

theorem StepOk.doTextObjectCtx {a b : ViContext} {cmd : ViCmd} {t : TextObject}
    (h : StepOk a b) : StepOk a (cmd.doTextObject t b).2.1 := by
  unfold ViCmd.doTextObject
  split
  · exact h
  · exact StepOk.runCtx h

theorem StepOk.doRepeatCtx {a b : ViContext} {cmd : ViCmd} {ev : Event}
    (hev : ev ≠ Event.Redraw) (h : StepOk a b) : StepOk a (cmd.doRepeat ev b).2 := by
  unfold ViCmd.doRepeat
  exact StepOk.emitN hev h _

theorem StepOk.emitAllBuf {a b : ViContext} {o : Option (List Event)} {l : List Event}
    (ho : bufOk o) (heq : o = some l) (h : StepOk a b) : StepOk a (b.emitAll l) :=
  StepOk.emitAll (ho l heq) h

set_option maxHeartbeats 2000000 in
theorem stepOk_normalChar (p : ViParser) (c : Char) {a ctx : ViContext}
    (hlast : bufOk p.last_change) (h : StepOk a ctx) :
    StepOk a (p.normalChar c ctx).2 := by
  unfold ViParser.normalChar
  repeat' first
    | assumption
    | apply StepOk.doMotionCtx
    | apply StepOk.doOperatorCtx
    | apply StepOk.doTextObjectCtx
    | apply StepOk.doRepeatCtx (by simp)
    | apply StepOk.e (by simp)
    | apply StepOk.start
    | apply StepOk.finish
    | apply StepOk.emitAllBuf hlast (by assumption)
    | dsimp only
    | split

set_option maxHeartbeats 2000000 in
theorem stepOk_dispatch (p : ViParser) (key : Key) {a ctx : ViContext}
    (hlast : bufOk p.last_change) (h : StepOk a ctx) :
    StepOk a (p.dispatch key ctx).2 := by
  unfold ViParser.dispatch
  repeat' first
    | assumption
    | exact stepOk_normalChar p _ hlast h
    | apply StepOk.doMotionCtx
    | apply StepOk.doOperatorCtx
    | apply StepOk.doTextObjectCtx
    | apply StepOk.doRepeatCtx (by simp)
    | apply StepOk.e (by simp)
    | apply StepOk.start
    | apply StepOk.finish
    | dsimp only
    | split

/-! ## Field behaviour of `finalize`, and invariant preservation -/

@[simp]
theorem finalize_events (p : ViParser) (ctx : ViContext) :
    (p.finalize ctx).2 = ctx.events ++ [Event.Redraw] := rfl

@[simp]
theorem finalize_pending (p : ViParser) (ctx : ViContext) :
    (p.finalize ctx).1.pending_change = ctx.pending_change := by
  unfold ViParser.finalize
  cases ctx.set_mode <;> cases ctx.change <;> rfl

@[simp]
theorem finalize_last (p : ViParser) (ctx : ViContext) :
    (p.finalize ctx).1.last_change = ctx.change.or p.last_change := by
  unfold ViParser.finalize
  cases ctx.set_mode <;> cases hc : ctx.change <;> simp [hc, Option.or]

@[simp]
theorem finalize_mode (p : ViParser) (ctx : ViContext) :
    (p.finalize ctx).1.mode = ctx.set_mode.getD p.mode := by
  unfold ViParser.finalize
  cases hs : ctx.set_mode <;> cases ctx.change <;> simp [hs]

@[simp]
theorem finalize_cmd (p : ViParser) (ctx : ViContext) :
    (p.finalize ctx).1.cmd = p.cmd := by
  unfold ViParser.finalize
  cases ctx.set_mode <;> cases ctx.change <;> rfl

@[simp]
theorem finalize_semicolon (p : ViParser) (ctx : ViContext) :
    (p.finalize ctx).1.semicolon_motion = p.semicolon_motion := by
  unfold ViParser.finalize
  cases ctx.set_mode <;> cases ctx.change <;> rfl

@[simp]
theorem finalize_register_mode (p : ViParser) (ctx : ViContext) :
    (p.finalize ctx).1.register_mode = p.register_mode := by
  unfold ViParser.finalize
  cases ctx.set_mode <;> cases ctx.change <;> rfl

set_option maxHeartbeats 2000000 in
/-- The dispatch never touches the `last_change` field of the parser (it is
only rewritten by the post-step bookkeeping). -/
theorem dispatch_last_change (p : ViParser) (key : Key) (ctx : ViContext) :
    (p.dispatch key ctx).1.last_change = p.last_change := by
  unfold ViParser.dispatch ViParser.normalChar
  repeat' first
    | rfl
    | dsimp only [ViParser.reset]
    | split

/-- The parser invariant behind the `Redraw`-terminator property: the two
recording buffers never hold a `Redraw`. -/
def PInv (p : ViParser) : Prop :=
  bufOk p.pending_change ∧ bufOk p.last_change

theorem pinv_new : PInv ViParser.new :=
  ⟨bufOk_none, bufOk_none⟩

theorem parse_shape (p : ViParser) (key : Key) (sel : Bool) (hp : PInv p) :
    (∃ l, (p.parse key sel).2 = l ++ [Event.Redraw] ∧ Event.Redraw ∉ l) ∧
    PInv (p.parse key sel).1 := by
  have hs := stepOk_dispatch p key.normalize hp.2 (StepOk.refl (p.initCtx sel))
  obtain ⟨⟨l, hl, hlr⟩, hbuf⟩ := hs
  obtain ⟨hpend, hchg⟩ := hbuf hp.1
  have hchg' := hchg bufOk_none
  unfold ViParser.parse
  refine ⟨⟨l, ?_, hlr⟩, ?_, ?_⟩
  · rw [finalize_events, hl]
    rfl
  · rw [finalize_pending]
    exact hpend
  · rw [finalize_last]
    cases hc : (p.dispatch key.normalize (p.initCtx sel)).2.change with
    | some c =>
      simp only [Option.or]
      exact bufOk_some (hchg' c hc)
    | none =>
      simp only [Option.or]
      rw [dispatch_last_change]
      exact hp.2

theorem parse_pinv (p : ViParser) (key : Key) (sel : Bool) (hp : PInv p) :
    PInv (p.parse key sel).1 :=
  (parse_shape p key sel hp).2

theorem stepKeys_pinv (ks : List (Key × Bool)) :
    ∀ p : ViParser, PInv p → PInv (p.stepKeys ks) := by
  induction ks with
  | nil => exact fun p hp => hp
  | cons kb rest ih =>
    intro p hp
    exact ih _ (parse_pinv p kb.1 kb.2 hp)

theorem reachable_pinv {p : ViParser} (h : Reachable p) : PInv p := by
  obtain ⟨ks, rfl⟩ := h
  exact stepKeys_pinv ks ViParser.new pinv_new

/-! ## Helper lemmas about the accumulator operations -/

theorem doTextObject_not_needed (cmd : ViCmd) (t : TextObject) (ctx : ViContext)
    (h : (cmd.motion.map Motion.text_object).getD false = false) :
    cmd.doTextObject t ctx = (cmd, ctx, false) := by
  unfold ViCmd.doTextObject
  rw [if_pos h]

theorem doOperator_eq_doMotionLine (cmd : ViCmd) (op : Operator) (ctx : ViContext)
    (h : cmd.operator = some op) :
    cmd.doOperator op ctx = cmd.doMotion Motion.Line ctx := by
  unfold ViCmd.doOperator ViCmd.doMotion
  rw [if_pos h]

/-! ## The claims -/

/-- C1: for every key and every reachable parser state, one `parse` call emits
exactly one `Redraw` event, and that `Redraw` is the last event of the call. -/
theorem claim_C1_redraw_terminator (p : ViParser) (k : Key) (sel : Bool)
    (h : Reachable p) :
    ∃ l, (p.parse k sel).2 = l ++ [Event.Redraw] ∧ Event.Redraw ∉ l :=
  (parse_shape p k sel (reachable_pinv h)).1

theorem claim_C1_redraw_terminator_witness :
    ∃ l, (ViParser.new.parse (Key.Char 'w') false).2 = l ++ [Event.Redraw] ∧
      Event.Redraw ∉ l :=
  claim_C1_redraw_terminator ViParser.new (Key.Char 'w') false ⟨[], rfl⟩

/-- C2 fails as stated: in a Normal-mode parser state with
`last_change = some [Delete]` and the selection inactive but a nonempty
`pending_change` buffer, feeding `.` leaves `last_change` different from the
replayed list (the stale pending events are prepended). -/
theorem claim_C2_counterexample :
    (({ ViParser.new with
        pending_change := some [Event.Undo]
        last_change := some [Event.Delete] } : ViParser).mode = ViMode.Normal ∧
     ({ ViParser.new with
        pending_change := some [Event.Undo]
        last_change := some [Event.Delete] } : ViParser).last_change
       = some [Event.Delete]) ∧
    (({ ViParser.new with
        pending_change := some [Event.Undo]
        last_change := some [Event.Delete] } : ViParser).parse
        (Key.Char '.') false).1.last_change ≠ some [Event.Delete] := by
  decide

/-- C2 (amended): in every Normal-mode parser state with
`last_change = some es`, **no pending change buffer** (as holds in every
reachable Normal-mode state), and the selection inactive, feeding `.` emits
exactly `ChangeStart`, the events of `es` in order, `ChangeFinish`, `Redraw`,
and leaves `last_change` equal to `es`. -/
theorem claim_C2_dot_repeat (p : ViParser) (es : List Event)
    (h1 : p.mode = ViMode.Normal) (h2 : p.pending_change = none)
    (h3 : p.last_change = some es) :
    (p.parse (Key.Char '.') false).2
      = Event.ChangeStart :: (es ++ [Event.ChangeFinish, Event.Redraw]) ∧
    (p.parse (Key.Char '.') false).1.last_change = some es := by
  obtain ⟨m, cmd, rm, sm, pc, lc⟩ := p
  dsimp only at h1 h2 h3
  subst h1
  subst h2
  subst h3
  unfold ViParser.parse
  rw [show (Key.Char '.').normalize = Key.Char '.' from rfl]
  rw [show (ViParser.mk ViMode.Normal cmd rm sm none (some es)).dispatch (Key.Char '.')
        ((ViParser.mk ViMode.Normal cmd rm sm none (some es)).initCtx false)
      = (ViParser.mk ViMode.Normal cmd rm sm none (some es),
          ((((ViParser.mk ViMode.Normal cmd rm sm none (some es)).initCtx
              false).start_change).emitAll es).finish_change) from rfl]
  constructor
  · rw [finalize_events]
    simp [ViParser.initCtx]
  · rw [finalize_last]
    simp [ViParser.initCtx, Option.or]

theorem claim_C2_dot_repeat_witness :
    (({ ViParser.new with last_change := some [Event.Delete] } : ViParser).parse
        (Key.Char '.') false).2
      = Event.ChangeStart :: ([Event.Delete] ++ [Event.ChangeFinish, Event.Redraw]) ∧
    (({ ViParser.new with last_change := some [Event.Delete] } : ViParser).parse
        (Key.Char '.') false).1.last_change = some [Event.Delete] :=
  claim_C2_dot_repeat _ [Event.Delete] rfl rfl rfl

/-- C3: from a fresh parser (Normal mode, selection inactive), `c` emits only
its trailing `Redraw`, and `w` then emits exactly `ChangeStart`,
`SelectStart`, `Motion(NextWordStart(Lower))`, `Yank` with the default
register `"`, `Delete`, `SelectClear` — no `ChangeFinish` — before its
trailing `Redraw`, and leaves the parser in Insert mode. -/
theorem claim_C3_change_word :
    (ViParser.new.parse (Key.Char 'c') false).2 = [Event.Redraw] ∧
    ((ViParser.new.parse (Key.Char 'c') false).1.parse (Key.Char 'w') false).2 =
      [Event.ChangeStart, Event.SelectStart,
       Event.Motion (Motion.NextWordStart Word.Lower),
       Event.Yank VI_DEFAULT_REGISTER, Event.Delete, Event.SelectClear,
       Event.Redraw] ∧
    ((ViParser.new.parse (Key.Char 'c') false).1.parse (Key.Char 'w') false).1.mode
      = ViMode.Insert := by
  decide

/-- C4: from a fresh parser (Normal mode, selection inactive), `d` and `i`
each emit only their trailing `Redraw`, and `w` then emits exactly
`ChangeStart`, `SelectTextObject(Word(Lower), false)`, `Yank` with the
default register `"`, `Delete`, `SelectClear`, `ChangeFinish` before its
trailing `Redraw`, and leaves the parser in Normal mode. -/
theorem claim_C4_delete_inner_word :
    (ViParser.new.parse (Key.Char 'd') false).2 = [Event.Redraw] ∧
    ((ViParser.new.parse (Key.Char 'd') false).1.parse (Key.Char 'i') false).2
      = [Event.Redraw] ∧
    (((ViParser.new.parse (Key.Char 'd') false).1.parse (Key.Char 'i') false).1.parse
        (Key.Char 'w') false).2 =
      [Event.ChangeStart,
       Event.SelectTextObject (TextObject.Word Word.Lower) false,
       Event.Yank VI_DEFAULT_REGISTER, Event.Delete, Event.SelectClear,
       Event.ChangeFinish, Event.Redraw] ∧
    (((ViParser.new.parse (Key.Char 'd') false).1.parse (Key.Char 'i') false).1.parse
        (Key.Char 'w') false).1.mode = ViMode.Normal := by
  decide

/-- C5 fails as stated: after `i`, `H`, `e`, `l`, `l`, `o` from a fresh
parser, the final Escape key emits `Motion(LeftInLine)`, `ChangeFinish`,
`Redraw` — the `ViMode::Insert` Escape arm of `ViParser::parse` never emits an
`Escape` event, contradicting the claimed `Motion(LeftInLine)`, `ChangeFinish`,
`Escape`. -/
theorem claim_C5_counterexample :
    ((ViParser.new.stepKeys
        [(Key.Char 'i', false), (Key.Char 'H', false), (Key.Char 'e', false),
         (Key.Char 'l', false), (Key.Char 'l', false), (Key.Char 'o', false)]).parse
        Key.Escape false).2
      = [Event.Motion Motion.LeftInLine, Event.ChangeFinish, Event.Redraw] ∧
    Event.Escape ∉
      ((ViParser.new.stepKeys
          [(Key.Char 'i', false), (Key.Char 'H', false), (Key.Char 'e', false),
           (Key.Char 'l', false), (Key.Char 'l', false), (Key.Char 'o', false)]).parse
          Key.Escape false).2 := by
  decide

/-- C5 (amended): feeding `i`, `H`, `e`, `l`, `l`, `o`, Escape to a fresh
parser emits (Redraws aside) exactly `ChangeStart` on `i`; `Insert` of each
letter on the letter keys; and `Motion(LeftInLine)`, `ChangeFinish` — with no
`Escape` event — on the final Escape key. -/
theorem claim_C5_insert_hello :
    (ViParser.new.parse (Key.Char 'i') false).2 = [Event.ChangeStart, Event.Redraw] ∧
    ((ViParser.new.stepKeys [(Key.Char 'i', false)]).parse (Key.Char 'H') false).2
      = [Event.Insert 'H', Event.Redraw] ∧
    ((ViParser.new.stepKeys [(Key.Char 'i', false), (Key.Char 'H', false)]).parse
        (Key.Char 'e') false).2 = [Event.Insert 'e', Event.Redraw] ∧
    ((ViParser.new.stepKeys
        [(Key.Char 'i', false), (Key.Char 'H', false), (Key.Char 'e', false)]).parse
        (Key.Char 'l') false).2 = [Event.Insert 'l', Event.Redraw] ∧
    ((ViParser.new.stepKeys
        [(Key.Char 'i', false), (Key.Char 'H', false), (Key.Char 'e', false),
         (Key.Char 'l', false)]).parse (Key.Char 'l') false).2
      = [Event.Insert 'l', Event.Redraw] ∧
    ((ViParser.new.stepKeys
        [(Key.Char 'i', false), (Key.Char 'H', false), (Key.Char 'e', false),
         (Key.Char 'l', false), (Key.Char 'l', false)]).parse (Key.Char 'o') false).2
      = [Event.Insert 'o', Event.Redraw] ∧
    ((ViParser.new.stepKeys
        [(Key.Char 'i', false), (Key.Char 'H', false), (Key.Char 'e', false),
         (Key.Char 'l', false), (Key.Char 'l', false), (Key.Char 'o', false)]).parse
        Key.Escape false).2
      = [Event.Motion Motion.LeftInLine, Event.ChangeFinish, Event.Redraw] := by
  decide

/-- C7 fails as stated: `reset()` does not return `semicolon_motion` to
`None` — after the keys `f`, `x` it stays `some (NextChar 'x')` through
`reset()` (the Rust `reset` only reassigns `mode` and `cmd`). -/
theorem claim_C7_counterexample :
    ((ViParser.new.stepKeys [(Key.Char 'f', false), (Key.Char 'x', false)]).reset).semicolon_motion
      = some (Motion.NextChar 'x') ∧
    some (Motion.NextChar 'x') ≠ (none : Option Motion) := by
  decide

/-- C7 (amended): after any key sequence — indeed from any parser state —
`reset()` returns `mode` and `cmd` to their post-`new()` values (mode Normal,
cmd all-default), while `semicolon_motion`, `last_change`, `register_mode`
and `pending_change` are all preserved. -/
theorem claim_C7_reset (p : ViParser) :
    (p.reset).mode = ViParser.new.mode ∧
    (p.reset).cmd = ViParser.new.cmd ∧
    (p.reset).semicolon_motion = p.semicolon_motion ∧
    (p.reset).last_change = p.last_change ∧
    (p.reset).register_mode = p.register_mode ∧
    (p.reset).pending_change = p.pending_change :=
  ⟨rfl, rfl, rfl, rfl, rfl, rfl⟩

/-! ## Equation lemmas for particular keys (all definitional) -/

theorem dispatch_char_normal (p : ViParser) (c : Char) (ctx : ViContext)
    (h : p.mode = ViMode.Normal) :
    p.dispatch (Key.Char c) ctx = p.normalChar c ctx := by
  obtain ⟨m, cmd, rm, sm, pc, lc⟩ := p
  dsimp only at h
  subst h
  rfl

theorem normalChar_p (p : ViParser) (ctx : ViContext) :
    p.normalChar 'p' ctx =
      (if (p.cmd.doTextObject TextObject.Paragraph ctx).2.2 = true then
        ({ p with cmd := (p.cmd.doTextObject TextObject.Paragraph ctx).1 },
         (p.cmd.doTextObject TextObject.Paragraph ctx).2.1)
      else
        ({ p with cmd := (p.cmd.doTextObject TextObject.Paragraph ctx).1 },
         (p.cmd.doTextObject TextObject.Paragraph ctx).2.1.e
           (Event.Put (p.cmd.register.getD VI_DEFAULT_REGISTER) true))) := rfl

theorem normalChar_P (p : ViParser) (ctx : ViContext) :
    p.normalChar 'P' ctx
      = (p, ctx.e (Event.Put (p.cmd.register.getD VI_DEFAULT_REGISTER) false)) := rfl

/-! ## Length monotonicity of the run emissions -/

theorem prelude_events_len (m : Motion) (t : Option TextObject) (n : Nat)
    (ctx : ViContext) :
    ctx.events.length ≤ (runPrelude m t n ctx).events.length := by
  cases m <;> simp [runPrelude]

theorem opEffect_events_len (op : Operator) (r : Char) (ctx : ViContext) :
    ctx.events.length < (runOpEffect op r ctx).events.length := by
  cases op <;> simp [runOpEffect]

/-- C9: `ViCmd::run` is exactly guarded by its precondition: when the guard
fails it returns `false`, emits nothing and leaves the context and every
accumulator field unchanged; when the guard holds it returns `true` and (for
any count the parser can build, i.e. any count other than a literal zero)
emits at least one event. -/
theorem claim_C9_run_guard (cmd : ViCmd) (ctx : ViContext) :
    (cmd.runGuard ctx.selection = false → cmd.run ctx = (cmd, ctx, false)) ∧
    (cmd.runGuard ctx.selection = true →
      (cmd.run ctx).2.2 = true ∧
      (cmd.count ≠ some 0 →
        ctx.events.length < (cmd.run ctx).2.1.events.length)) := by
  constructor
  · intro h
    unfold ViCmd.run
    rw [if_pos h]
  · intro h
    have hne : ¬ cmd.runGuard ctx.selection = false := by simp [h]
    unfold ViCmd.run
    rw [if_neg hne]
    dsimp only
    cases hop : cmd.operator with
    | some op =>
      constructor
      · dsimp only
        split <;> rfl
      · intro hc
        have hst : ctx.events.length < ctx.start_change.events.length := by simp
        have hpre := prelude_events_len (cmd.motion.getD Motion.Selection)
          cmd.text_object (cmd.count.getD 1) ctx.start_change
        have hope := opEffect_events_len op (cmd.register.getD VI_DEFAULT_REGISTER)
          (runPrelude (cmd.motion.getD Motion.Selection) cmd.text_object
            (cmd.count.getD 1) ctx.start_change)
        dsimp only
        split <;>
          (dsimp only
           simp only [finish_change_events, e_events, List.length_append]) <;>
          omega
    | none =>
      constructor
      · rfl
      · intro hc
        have hn : 1 ≤ cmd.count.getD 1 := by
          cases hcnt : cmd.count with
          | none => simp
          | some k =>
            cases k with
            | zero => exact absurd hcnt hc
            | succ k => simp
        dsimp only
        cases hm : cmd.motion.getD Motion.Selection <;> simp [runNoOperator] <;> omega

theorem claim_C9_run_guard_witness :
    (ViCmd.run { operator := some Operator.Delete }
        { events := [], selection := false, pending_change := none,
          change := none, set_mode := none }
      = ({ operator := some Operator.Delete },
         { events := [], selection := false, pending_change := none,
           change := none, set_mode := none }, false)) ∧
    ((ViCmd.run { motion := some Motion.Left }
        { events := [], selection := false, pending_change := none,
          change := none, set_mode := none }).2.2 = true) ∧
    (({ events := [], selection := false, pending_change := none,
        change := none, set_mode := none } : ViContext).events.length
      < (ViCmd.run { motion := some Motion.Left }
          { events := [], selection := false, pending_change := none,
            change := none, set_mode := none }).2.1.events.length) := by
  refine ⟨(claim_C9_run_guard _ _).1 (by decide), ?_, ?_⟩
  · exact ((claim_C9_run_guard _ _).2 (by decide)).1
  · exact ((claim_C9_run_guard _ _).2 (by decide)).2 (by decide)

/-- C10: in Normal mode, with no pending `Around`/`Inside` motion awaiting a
text object, `p` emits `Put` with the selected register (default `"`) and
`after = true`, `P` the same with `after = false`, and neither consumes
`cmd.register` — a register chosen via `"x` keeps applying until a successful
`run()` takes it. -/
theorem claim_C10_put_register (p : ViParser) (sel : Bool)
    (h1 : p.mode = ViMode.Normal)
    (h2 : (p.cmd.motion.map Motion.text_object).getD false = false) :
    (p.parse (Key.Char 'p') sel).2
      = [Event.Put (p.cmd.register.getD VI_DEFAULT_REGISTER) true, Event.Redraw] ∧
    (p.parse (Key.Char 'p') sel).1.cmd.register = p.cmd.register ∧
    (p.parse (Key.Char 'P') sel).2
      = [Event.Put (p.cmd.register.getD VI_DEFAULT_REGISTER) false, Event.Redraw] ∧
    (p.parse (Key.Char 'P') sel).1.cmd.register = p.cmd.register := by
  unfold ViParser.parse
  rw [show (Key.Char 'p').normalize = Key.Char 'p' from rfl,
    show (Key.Char 'P').normalize = Key.Char 'P' from rfl,
    dispatch_char_normal p 'p' _ h1, dispatch_char_normal p 'P' _ h1,
    normalChar_p, normalChar_P,
    doTextObject_not_needed p.cmd TextObject.Paragraph _ h2]
  simp [ViParser.initCtx]

theorem claim_C10_put_register_witness :
    (ViParser.new.parse (Key.Char 'p') false).2
      = [Event.Put (ViParser.new.cmd.register.getD VI_DEFAULT_REGISTER) true,
         Event.Redraw] ∧
    (ViParser.new.parse (Key.Char 'p') false).1.cmd.register
      = ViParser.new.cmd.register ∧
    (ViParser.new.parse (Key.Char 'P') false).2
      = [Event.Put (ViParser.new.cmd.register.getD VI_DEFAULT_REGISTER) false,
         Event.Redraw] ∧
    (ViParser.new.parse (Key.Char 'P') false).1.cmd.register
      = ViParser.new.cmd.register :=
  claim_C10_put_register ViParser.new false rfl rfl

/-! ## C6: the double-operator law -/

theorem normalChar_c (p : ViParser) (ctx : ViContext) :
    p.normalChar 'c' ctx
      = ({ p with cmd := (p.cmd.doOperator Operator.Change ctx).1 },
         (p.cmd.doOperator Operator.Change ctx).2) := rfl

theorem normalChar_d (p : ViParser) (ctx : ViContext) :
    p.normalChar 'd' ctx
      = ({ p with cmd := (p.cmd.doOperator Operator.Delete ctx).1 },
         (p.cmd.doOperator Operator.Delete ctx).2) := rfl

theorem normalChar_y (p : ViParser) (ctx : ViContext) :
    p.normalChar 'y' ctx
      = ({ p with cmd := (p.cmd.doOperator Operator.Yank ctx).1 },
         (p.cmd.doOperator Operator.Yank ctx).2) := rfl

theorem normalChar_tilde (p : ViParser) (ctx : ViContext) :
    p.normalChar '~' ctx
      = ({ p with cmd := (p.cmd.doOperator Operator.SwapCase ctx).1 },
         (p.cmd.doOperator Operator.SwapCase ctx).2) := rfl

theorem normalChar_eq (p : ViParser) (ctx : ViContext) :
    p.normalChar '=' ctx
      = ({ p with cmd := (p.cmd.doOperator Operator.AutoIndent ctx).1 },
         (p.cmd.doOperator Operator.AutoIndent ctx).2) := rfl

theorem normalChar_lt (p : ViParser) (ctx : ViContext) :
    p.normalChar '<' ctx =
      (if (p.cmd.doTextObject TextObject.AngleBrackets ctx).2.2 = true then
        ({ p with cmd := (p.cmd.doTextObject TextObject.AngleBrackets ctx).1 },
         (p.cmd.doTextObject TextObject.AngleBrackets ctx).2.1)
      else
        ({ p with
            cmd := ((p.cmd.doTextObject TextObject.AngleBrackets ctx).1.doOperator
              Operator.ShiftLeft (p.cmd.doTextObject TextObject.AngleBrackets ctx).2.1).1 },
         ((p.cmd.doTextObject TextObject.AngleBrackets ctx).1.doOperator
           Operator.ShiftLeft (p.cmd.doTextObject TextObject.AngleBrackets ctx).2.1).2)) := rfl

theorem normalChar_gt (p : ViParser) (ctx : ViContext) :
    p.normalChar '>' ctx =
      (if (p.cmd.doTextObject TextObject.AngleBrackets ctx).2.2 = true then
        ({ p with cmd := (p.cmd.doTextObject TextObject.AngleBrackets ctx).1 },
         (p.cmd.doTextObject TextObject.AngleBrackets ctx).2.1)
      else
        ({ p with
            cmd := ((p.cmd.doTextObject TextObject.AngleBrackets ctx).1.doOperator
              Operator.ShiftRight (p.cmd.doTextObject TextObject.AngleBrackets ctx).2.1).1 },
         ((p.cmd.doTextObject TextObject.AngleBrackets ctx).1.doOperator
           Operator.ShiftRight (p.cmd.doTextObject TextObject.AngleBrackets ctx).2.1).2)) := rfl

/-- C6 fails as stated: with an active selection, from the (reachable,
Normal-mode) state after one `d` key, feeding `d` again runs a whole
selection-scoped delete, while setting motion `Line` on the accumulator
merely emits `Motion(Line)` — different event streams. -/
theorem claim_C6_counterexample :
    (ViParser.new.parse (Key.Char 'd') true).1.mode = ViMode.Normal ∧
    ((ViParser.new.parse (Key.Char 'd') true).1.parse (Key.Char 'd') true).2
      ≠ ((ViParser.new.parse (Key.Char 'd') true).1.parseMotionLine true).2 := by
  decide

/-- C6 (amended): if the accumulator still holds the operator `op` (the
command has not yet run) and the operator key maps directly to `op` — any of
`c`, `d`, `y`, `~`, `=` unconditionally, or `<`/`>` when no pending
`Around`/`Inside` motion intercepts them as a text object — then feeding that
key is the same, events and final state alike, as explicitly setting motion
`Line` on the accumulator: the doubled operator compiles into a line-scoped
command. -/
theorem claim_C6_double_operator (p : ViParser) (c : Char) (op : Operator) (sel : Bool)
    (h1 : p.mode = ViMode.Normal)
    (h2 : opCharOf c = some op)
    (h3 : p.cmd.operator = some op)
    (h4 : c = '<' ∨ c = '>' →
      (p.cmd.motion.map Motion.text_object).getD false = false) :
    p.parse (Key.Char c) sel = p.parseMotionLine sel := by
  simp only [opCharOf] at h2
  split_ifs at h2 with e1 e2 e3 e4 e5 e6 e7
  · subst e1
    obtain rfl := Option.some.inj h2
    simp only [ViParser.parse, ViParser.parseMotionLine,
      show (Key.Char 'c').normalize = Key.Char 'c' from rfl,
      dispatch_char_normal _ _ _ h1, normalChar_c,
      doOperator_eq_doMotionLine _ _ _ h3]
  · subst e2
    obtain rfl := Option.some.inj h2
    simp only [ViParser.parse, ViParser.parseMotionLine,
      show (Key.Char 'd').normalize = Key.Char 'd' from rfl,
      dispatch_char_normal _ _ _ h1, normalChar_d,
      doOperator_eq_doMotionLine _ _ _ h3]
  · subst e3
    obtain rfl := Option.some.inj h2
    simp only [ViParser.parse, ViParser.parseMotionLine,
      show (Key.Char 'y').normalize = Key.Char 'y' from rfl,
      dispatch_char_normal _ _ _ h1, normalChar_y,
      doOperator_eq_doMotionLine _ _ _ h3]
  · subst e4
    obtain rfl := Option.some.inj h2
    simp only [ViParser.parse, ViParser.parseMotionLine,
      show (Key.Char '~').normalize = Key.Char '~' from rfl,
      dispatch_char_normal _ _ _ h1, normalChar_tilde,
      doOperator_eq_doMotionLine _ _ _ h3]
  · subst e5
    obtain rfl := Option.some.inj h2
    simp only [ViParser.parse, ViParser.parseMotionLine,
      show (Key.Char '=').normalize = Key.Char '=' from rfl,
      dispatch_char_normal _ _ _ h1, normalChar_eq,
      doOperator_eq_doMotionLine _ _ _ h3]
  · subst e6
    obtain rfl := Option.some.inj h2
    have h4' := h4 (Or.inl rfl)
    simp only [ViParser.parse, ViParser.parseMotionLine,
      show (Key.Char '<').normalize = Key.Char '<' from rfl,
      dispatch_char_normal _ _ _ h1, normalChar_lt,
      doTextObject_not_needed _ _ _ h4',
      doOperator_eq_doMotionLine _ _ _ h3,
      show (false = true) = False from by simp, if_false]
  · subst e7
    obtain rfl := Option.some.inj h2
    have h4' := h4 (Or.inr rfl)
    simp only [ViParser.parse, ViParser.parseMotionLine,
      show (Key.Char '>').normalize = Key.Char '>' from rfl,
      dispatch_char_normal _ _ _ h1, normalChar_gt,
      doTextObject_not_needed _ _ _ h4',
      doOperator_eq_doMotionLine _ _ _ h3,
      show (false = true) = False from by simp, if_false]

theorem claim_C6_double_operator_witness :
    (ViParser.new.stepKeys [(Key.Char 'd', false)]).parse (Key.Char 'd') false
      = (ViParser.new.stepKeys [(Key.Char 'd', false)]).parseMotionLine false :=
  claim_C6_double_operator _ 'd' Operator.Delete false (by decide) (by decide)
    (by decide) (fun hlg => by decide)

/-! ## C8: tracking the requested mode (`ctx.set_mode`) through a dispatch -/

/-- The accumulator's operator is either the one it started the call with, or
already consumed. -/
def cmdOpOk (op0 : Option Operator) (cmd : ViCmd) : Prop :=
  cmd.operator = op0 ∨ cmd.operator = none

/-- After some accumulator operations on top of `base`, the requested mode is
unchanged, or `Normal`, or `Insert` — the latter only when the operator
available at the start was `Change`. -/
def SMOk (op0 : Option Operator) (base ctx' : ViContext) : Prop :=
  ctx'.set_mode = base.set_mode ∨ ctx'.set_mode = some ViMode.Normal ∨
    (ctx'.set_mode = some ViMode.Insert ∧ op0 = some Operator.Change)

theorem smok_refl (op0 : Option Operator) (base : ViContext) : SMOk op0 base base :=
  Or.inl rfl

theorem smok_trans {op0 : Option Operator} {a b c : ViContext}
    (h1 : SMOk op0 a b) (h2 : SMOk op0 b c) : SMOk op0 a c := by
  rcases h2 with h2 | h2 | h2
  · rcases h1 with h1 | h1 | h1
    · exact Or.inl (h2.trans h1)
    · exact Or.inr (Or.inl (h2.trans h1))
    · exact Or.inr (Or.inr ⟨h2.trans h1.1, h1.2⟩)
  · exact Or.inr (Or.inl h2)
  · exact Or.inr (Or.inr h2)

@[simp]
theorem runNoOperator_set_mode (m : Motion) (t : Option TextObject) (n : Nat)
    (ctx : ViContext) : (runNoOperator m t n ctx).set_mode = ctx.set_mode := by
  cases m <;> simp [runNoOperator]

theorem run_sm {op0 : Option Operator} (cmd : ViCmd) (ctx : ViContext)
    (hcmd : cmdOpOk op0 cmd) :
    SMOk op0 ctx (cmd.run ctx).2.1 ∧ cmdOpOk op0 (cmd.run ctx).1 := by
  unfold ViCmd.run
  split
  · exact ⟨smok_refl _ _, hcmd⟩
  · dsimp only
    cases hop : cmd.operator with
    | some op =>
      dsimp only
      rcases hcmd with hc | hc
      · by_cases hch : op = Operator.Change
        · subst hch
          rw [if_pos rfl]
          refine ⟨Or.inr (Or.inr ⟨rfl, ?_⟩), Or.inr rfl⟩
          rw [← hc, hop]
        · rw [if_neg hch]
          exact ⟨Or.inr (Or.inl rfl), Or.inr rfl⟩
      · rw [hop] at hc
        cases hc
    | none =>
      dsimp only
      exact ⟨Or.inl (runNoOperator_set_mode _ _ _ _), Or.inr rfl⟩

theorem doMotion_sm {op0 : Option Operator} (cmd : ViCmd) (m : Motion)
    (ctx : ViContext) (hcmd : cmdOpOk op0 cmd) :
    SMOk op0 ctx (cmd.doMotion m ctx).2 ∧ cmdOpOk op0 (cmd.doMotion m ctx).1 := by
  unfold ViCmd.doMotion
  dsimp only
  exact run_sm _ _ hcmd

theorem doTextObject_sm {op0 : Option Operator} (cmd : ViCmd) (t : TextObject)
    (ctx : ViContext) (hcmd : cmdOpOk op0 cmd) :
    SMOk op0 ctx (cmd.doTextObject t ctx).2.1 ∧
      cmdOpOk op0 (cmd.doTextObject t ctx).1 := by
  unfold ViCmd.doTextObject
  split
  · exact ⟨smok_refl _ _, hcmd⟩
  · dsimp only
    exact run_sm _ _ hcmd

theorem doMotion_set_mode_pres {cmd : ViCmd} (hop : cmd.operator = none)
    (m : Motion) (ctx : ViContext) :
    (cmd.doMotion m ctx).2.set_mode = ctx.set_mode := by
  unfold ViCmd.doMotion ViCmd.run
  dsimp only
  split
  · rfl
  · rw [hop]
    dsimp only
    rw [runNoOperator_set_mode]

theorem smok_finish {op0 : Option Operator} {base ctx' : ViContext}
    (hsm : SMOk op0 base ctx') (hbase : base.set_mode = none) :
    ctx'.set_mode.getD ViMode.Normal = ViMode.Normal ∨
      (op0 = some Operator.Change ∧
        ctx'.set_mode.getD ViMode.Normal = ViMode.Insert) := by
  rcases hsm with h | h | h
  · rw [h, hbase]
    exact Or.inl rfl
  · rw [h]
    exact Or.inl rfl
  · refine Or.inr ⟨h.2, ?_⟩
    rw [h.1]
    rfl

/-- C8 fails as stated: `c` then `f` leaves the parser in `Extra('f')`, yet the
next key `x` completes the pending `Change` command, so the parser ends up in
Insert mode, not Normal. -/
theorem claim_C8_counterexample :
    (ViParser.new.stepKeys [(Key.Char 'c', false), (Key.Char 'f', false)]).mode
      = ViMode.Extra 'f' ∧
    ((ViParser.new.stepKeys [(Key.Char 'c', false), (Key.Char 'f', false)]).parse
        (Key.Char 'x') false).1.mode ≠ ViMode.Normal ∧
    ((ViParser.new.stepKeys [(Key.Char 'c', false), (Key.Char 'f', false)]).parse
        (Key.Char 'x') false).1.mode = ViMode.Insert := by
  decide

/-- C8 (amended): whenever the parser is in mode `Extra(c)`, the next `parse`
call consumes exactly that one key and leaves the parser in mode Normal —
except `Extra('"')`, which leaves it in the saved `register_mode`, and except
when the consumed key completes a command whose pending operator is `Change`,
which leaves it in Insert mode. -/
theorem claim_C8_extra_one_key (p : ViParser) (c : Char) (key : Key) (sel : Bool)
    (h : p.mode = ViMode.Extra c) :
    (c = '\x22' → (p.parse key sel).1.mode = p.register_mode) ∧
    (c ≠ '\x22' →
      (p.parse key sel).1.mode = ViMode.Normal ∨
        (p.cmd.operator = some Operator.Change ∧
          (p.parse key sel).1.mode = ViMode.Insert)) := by
  obtain ⟨m, cmd, rm, sm, pc, lc⟩ := p
  dsimp only at h ⊢
  subst h
  by_cases hq : c = '\x22'
  · subst hq
    refine ⟨fun _ => ?_, fun hne => absurd rfl hne⟩
    unfold ViParser.parse
    cases hk : key.normalize <;> rfl
  · refine ⟨fun hq2 => absurd hq2 hq, fun _ => ?_⟩
    unfold ViParser.parse ViParser.dispatch
    dsimp only
    by_cases hf : c = 'f' ∨ c = 'F' ∨ c = 't' ∨ c = 'T'
    · rw [if_pos hf]
      cases hk : key.normalize <;> try exact Or.inl rfl
      dsimp only
      rw [finalize_mode]
      dsimp only [ViParser.reset]
      exact smok_finish ((doMotion_sm cmd _ _ (Or.inl rfl)).1) rfl
    · rw [if_neg hf]
      by_cases hg : c = 'g'
      · rw [if_pos hg]
        cases hk : key.normalize <;> try exact Or.inl rfl
        rename_i c'
        dsimp only
        by_cases he1 : c' = 'e'
        · rw [if_pos he1, finalize_mode]
          dsimp only [ViParser.reset]
          exact smok_finish ((doMotion_sm cmd _ _ (Or.inl rfl)).1) rfl
        · rw [if_neg he1]
          by_cases he2 : c' = 'E'
          · rw [if_pos he2, finalize_mode]
            dsimp only [ViParser.reset]
            exact smok_finish ((doMotion_sm cmd _ _ (Or.inl rfl)).1) rfl
          · rw [if_neg he2]
            by_cases he3 : c' = 'g'
            · rw [if_pos he3]
              cases hcnt : cmd.count with
              | some line =>
                rw [finalize_mode]
                dsimp only [ViParser.reset]
                exact smok_finish
                  ((doMotion_sm { cmd with count := none } _ _ (Or.inl rfl)).1) rfl
              | none =>
                rw [finalize_mode]
                dsimp only [ViParser.reset]
                exact smok_finish ((doMotion_sm cmd _ _ (Or.inl rfl)).1) rfl
            · rw [if_neg he3]
              by_cases he4 : c' = 'n'
              · rw [if_pos he4, finalize_mode]
                dsimp only [ViParser.reset]
                have h1 := doMotion_sm cmd Motion.Inside
                  ((ViParser.mk (ViMode.Extra c) cmd rm sm pc lc).initCtx sel)
                  (Or.inl rfl)
                have h2 := doTextObject_sm ((cmd.doMotion Motion.Inside
                    ((ViParser.mk (ViMode.Extra c) cmd rm sm pc lc).initCtx sel)).1)
                  (TextObject.Search true)
                  ((cmd.doMotion Motion.Inside
                    ((ViParser.mk (ViMode.Extra c) cmd rm sm pc lc).initCtx sel)).2)
                  h1.2
                exact smok_finish (smok_trans h1.1 h2.1) rfl
              · rw [if_neg he4]
                by_cases he5 : c' = 'N'
                · rw [if_pos he5, finalize_mode]
                  dsimp only [ViParser.reset]
                  have h1 := doMotion_sm cmd Motion.Inside
                    ((ViParser.mk (ViMode.Extra c) cmd rm sm pc lc).initCtx sel)
                    (Or.inl rfl)
                  have h2 := doTextObject_sm ((cmd.doMotion Motion.Inside
                      ((ViParser.mk (ViMode.Extra c) cmd rm sm pc lc).initCtx sel)).1)
                    (TextObject.Search false)
                    ((cmd.doMotion Motion.Inside
                      ((ViParser.mk (ViMode.Extra c) cmd rm sm pc lc).initCtx sel)).2)
                    h1.2
                  exact smok_finish (smok_trans h1.1 h2.1) rfl
                · rw [if_neg he5]
                  exact Or.inl rfl
      · rw [if_neg hg]
        by_cases hr : c = 'r'
        · rw [if_pos hr]
          cases hk : key.normalize <;> try exact Or.inl rfl
          dsimp only
          rw [finalize_mode]
          dsimp only [ViParser.reset]
          rw [finish_change_set_mode, doMotion_set_mode_pres rfl, e_set_mode,
            e_set_mode, start_change_set_mode]
          exact Or.inl rfl
        · rw [if_neg hr, if_neg hq]
          exact Or.inl rfl

theorem claim_C8_extra_one_key_witness :
    ((ViParser.new.stepKeys [(Key.Char 'f', false)]).parse (Key.Char 'x') false).1.mode
        = ViMode.Normal ∨
      ((ViParser.new.stepKeys [(Key.Char 'f', false)]).cmd.operator
          = some Operator.Change ∧
        ((ViParser.new.stepKeys [(Key.Char 'f', false)]).parse
            (Key.Char 'x') false).1.mode = ViMode.Insert) :=
  (claim_C8_extra_one_key (ViParser.new.stepKeys [(Key.Char 'f', false)]) 'f'
    (Key.Char 'x') false (by decide)).2 (by decide)

end Modit
